import Mathlib

/-!
A verification development for the Fix My Form workout-form analyzer.

The repository ships a Next.js frontend (`frontend/components/*.tsx`,
`frontend/lib/api.ts`) and documents a FastAPI scoring backend in its README.
The backend source itself is not part of this snapshot, so the Scoring Engine
and Diagnostic Reporter are modelled here from the specification's words
(Sections 4.6, 4.7 and the README's Scoring Algorithm notes); the frontend
components are embedded directly from their TypeScript source.

All numeric state is modelled with `Nat`, `Int` and `Rat`; the JavaScript
numbers involved (scores, zoom factors in quarter steps, millisecond
timeouts) are exactly representable, so rationals are a faithful embedding.
-/

namespace FixMyForm

/-! ## Scoring Engine (modelled from the spec)

Spec 4.6: per category, compute the deviation from the ideal range, classify
it into within-tolerance / minor / major / critical, apply the associated
penalty to a starting score of 100 and floor the result at 30.  A category
with zero measured values gets the fixed fallback 75 and is omitted from
penalty-driven feedback.  The overall score is the unweighted arithmetic
mean of all category scores, rounded to the nearest integer.  The README's
"Scoring Algorithm" section fixes the penalties: critical 30, major 15,
minor 5. -/

namespace Scoring

/-- Severity band of a measured deviation (spec Glossary, 4.6). -/
inductive Severity where
  | withinTolerance
  | minor
  | major
  | critical
deriving DecidableEq, Repr

/-- Modelled from the spec: penalty weights per severity band; the README's
Scoring Algorithm lists Critical 30pt, Major 15pt, Minor 5pt penalties. -/
def Severity.penalty : Severity → ℚ
  | .withinTolerance => 0
  | .minor => 5
  | .major => 15
  | .critical => 30

/-- Modelled from the spec: per exercise-type, per metric-category reference
standard: ideal range, tolerance band and severity thresholds (spec 3,
ExerciseStandard). -/
structure ExerciseStandard where
  idealLo : ℚ
  idealHi : ℚ
  tolerance : ℚ
  minorMax : ℚ
  majorMax : ℚ
deriving DecidableEq, Repr

/-- Deviation of a measured value from the ideal range (spec 4.6). -/
def deviation (std : ExerciseStandard) (v : ℚ) : ℚ :=
  if v < std.idealLo then std.idealLo - v
  else if std.idealHi < v then v - std.idealHi
  else 0

/-- Classification of a deviation into a severity band per the standard's
thresholds (spec 4.6). -/
def classify (std : ExerciseStandard) (d : ℚ) : Severity :=
  if d ≤ std.tolerance then .withinTolerance
  else if d ≤ std.minorMax then .minor
  else if d ≤ std.majorMax then .major
  else .critical

/-- Fixed fallback score for a category with zero measured values
(spec 4.6: "assign a fixed fallback score (e.g., 75)"). -/
def fallbackScore : ℚ := 75

/-- Score of a category that has at least one measured value: the associated
penalty is applied to a starting score of 100 and the result is floored
at 30 (spec 4.6).  The representative deviation is taken at the mean of the
measured values across all reps. -/
def measuredScore (std : ExerciseStandard) (vals : List ℚ) : ℚ :=
  max 30 (100 - (classify std (deviation std (vals.sum / vals.length))).penalty)

/-- Category score: fallback 75 when nothing was measured, otherwise the
penalised-and-floored score (spec 4.6). -/
def categoryScore (std : ExerciseStandard) (vals : List ℚ) : ℚ :=
  if vals = [] then fallbackScore else measuredScore std vals

/-- Input to the Scoring Engine for one category: the per-exercise standard
and the measured metric values across all reps, with the unmeasured
(`None`) entries already filtered out (spec 4.6). -/
structure CategoryInput where
  name : String
  std : ExerciseStandard
  values : List ℚ
deriving DecidableEq, Repr

/-- CategoryScore record of the data model (spec 3). -/
structure CategoryScore where
  category : String
  score : ℚ
  feedback : String
deriving DecidableEq, Repr

/-- Feedback text per severity band (modelled from the spec: textual
feedback accompanies each category score). -/
def feedbackText (sev : Severity) : String :=
  match sev with
  | .withinTolerance => "within the ideal range"
  | .minor => "minor deviation from the ideal range"
  | .major => "major deviation from the ideal range"
  | .critical => "critical deviation from the ideal range"

/-- Feedback attached to one scored category. -/
def categoryFeedback (c : CategoryInput) : String :=
  if c.values = [] then "not measured"
  else feedbackText (classify c.std (deviation c.std (c.values.sum / c.values.length)))

/-- Scoring of one category input. -/
def scoreCategory (c : CategoryInput) : CategoryScore :=
  ⟨c.name, categoryScore c.std c.values, categoryFeedback c⟩

/-- Overall score: unweighted arithmetic mean of the category scores, rounded
to the nearest integer (spec 4.6). -/
def overallScore (scores : List ℚ) : ℤ :=
  round (scores.sum / scores.length)

/-- Short imperative cue keyed to a category (modelled from the spec:
"specific cues are short imperative phrases keyed to the worst 1-3
categories"). -/
def cueFor (category : String) : String :=
  "Improve your " ++ category

/-- Comparison used to order the breakdown by ascending score. -/
def scoreLE (a b : CategoryScore) : Bool :=
  a.score ≤ b.score

/-- AnalysisResult record of the data model (spec 3). -/
structure AnalysisResult where
  overall_score : ℤ
  strengths : List String
  areas_for_improvement : List String
  specific_cues : List String
  exercise_breakdown : List CategoryScore
deriving DecidableEq, Repr

/-- Modelled from the spec (4.6): the Scoring Engine.  Strengths are the
categories scoring at least 80; areas for improvement are the measured
categories scoring below 60 (a fallback category is omitted from
penalty-driven feedback); specific cues are keyed to the worst one to three
categories of the breakdown. -/
def analyze (cats : List CategoryInput) : AnalysisResult :=
  let breakdown := cats.map scoreCategory
  { overall_score := overallScore (breakdown.map CategoryScore.score)
    strengths :=
      (breakdown.filter (fun b => decide (80 ≤ b.score))).map CategoryScore.category
    areas_for_improvement :=
      ((cats.filter (fun c => !c.values.isEmpty &&
          decide (categoryScore c.std c.values < 60))).map CategoryInput.name)
    specific_cues :=
      ((breakdown.mergeSort scoreLE).take 3).map (fun b => cueFor b.category)
    exercise_breakdown := breakdown }

end Scoring

/-! ## Failure classification (modelled from the spec)

Spec 4.7 / 7: `QualityGateFailed`, `InsufficientPoseSignal`, `NoRepsDetected`
are the only pipeline-internal failure causes; `PipelineTimeout` is the
externally enforced, timeout-specific cause, distinct from the three. -/

/-- Modelled from the spec: the failure-cause taxonomy of the Diagnostic
Reporter (spec 4.7, 7); the reporter source is not in this snapshot. -/
inductive FailureCause where
  | qualityGateFailed
  | insufficientPoseSignal
  | noRepsDetected
  | pipelineTimeout
deriving DecidableEq, Repr

/-! ## Diagnostic Reporter (modelled from the spec)

Spec 3 (QualityReport, Diagnostic) and 4.7: every failure carries the
QualityReport context — frames sampled, frames with usable pose, success
rate = usable/sampled, average visible landmarks, issue codes and
recommendation strings — never an opaque failure.  The field names follow
the frontend's `DiagnosticPanelProps` (frontend/components/DiagnosticPanel.tsx). -/

namespace Reporter

/-- Modelled from the spec: the QualityReport computed once by the Pose
Extraction Engine (spec 3). -/
structure QualityReport where
  totalFrames : ℕ
  framesWithPose : ℕ
  avgVisibleLandmarks : ℚ
  issues : List String
  recommendations : List String
deriving DecidableEq, Repr

/-- Success rate = usable / sampled (spec 3). -/
def QualityReport.successRate (qr : QualityReport) : ℚ :=
  (qr.framesWithPose : ℚ) / (qr.totalFrames : ℚ)

/-- Diagnostic payload, fields as consumed by DiagnosticPanel.tsx. -/
structure Diagnostic where
  total_frames : ℕ
  frames_with_pose : ℕ
  success_rate : ℚ
  avg_visible_landmarks : ℚ
  issues : List String
  recommendations : List String
deriving DecidableEq, Repr

/-- Modelled from the spec: issue code of each failure cause (spec 4.7). -/
def issueCodeFor (cause : FailureCause) : String :=
  match cause with
  | .qualityGateFailed => "quality_gate_failed"
  | .insufficientPoseSignal => "insufficient_pose_signal"
  | .noRepsDetected => "no_reps_detected"
  | .pipelineTimeout => "pipeline_timeout"

/-- Modelled from the spec: category-specific recommendations per failure
cause (spec 4.7 lists "record from a side angle", "increase lighting",
"keep full body in frame", "record more repetitions"). -/
def recommendationsFor (cause : FailureCause) : List String :=
  match cause with
  | .qualityGateFailed => ["increase lighting", "record between 2 and 60 seconds"]
  | .insufficientPoseSignal => ["record from a side angle", "keep full body in frame"]
  | .noRepsDetected => ["record more repetitions"]
  | .pipelineTimeout => ["record a shorter video"]

/-- Modelled from the spec: the Diagnostic Reporter.  Every failure carries
the QualityReport fields, its issue code and a non-empty recommendation
list (spec 4.7: the core never returns an opaque failure). -/
def report (cause : FailureCause) (qr : QualityReport) : Diagnostic :=
  { total_frames := qr.totalFrames
    frames_with_pose := qr.framesWithPose
    success_rate := qr.successRate
    avg_visible_landmarks := qr.avgVisibleLandmarks
    issues := issueCodeFor cause :: qr.issues
    recommendations := qr.recommendations ++ recommendationsFor cause }

end Reporter

/-! ## API client timeouts (frontend/lib/api.ts and src/unnamed/part_000)

Two revisions of the axios client are in the snapshot.  Both create the
instance with `timeout: 30000`.  The unnamed revision (part_000) overrides
the analyze call with `timeout: 300000` ("5 minutes for analysis (matches
backend timeout)"); the revision at src/frontend/lib/api.ts passes no
per-request timeout, so the analyze call inherits the instance default. -/

namespace Api

/-- `axios.create({ baseURL, timeout: 30000 })` — both client revisions. -/
def instanceTimeoutMs : ℕ := 30000

/-- Per-request timeout of `analyzeVideo` in src/frontend/lib/api.ts:
no override is passed. -/
def analyzeTimeoutNamed : Option ℕ := none

/-- Per-request timeout of `analyzeVideo` in the unnamed client revision
(src/unnamed/part_000 line 83): `timeout: 300000`. -/
def analyzeTimeoutUnnamed : Option ℕ := some 300000

/-- axios config merge: a per-request timeout overrides the instance
default. -/
def effectiveTimeoutMs (override : Option ℕ) : ℕ :=
  override.getD instanceTimeoutMs

end Api

/-! ## AnalysisResults display thresholds
(frontend/components/AnalysisResults.tsx) -/

namespace AnalysisResults

/-- `getScoreColor` (AnalysisResults.tsx lines 44-48). -/
def getScoreColor (score : ℚ) : String :=
  if 80 ≤ score then "text-success-600"
  else if 60 ≤ score then "text-warm-600"
  else "text-error-600"

/-- `getScoreBg` (AnalysisResults.tsx lines 50-54). -/
def getScoreBg (score : ℚ) : String :=
  if 80 ≤ score then "score-excellent"
  else if 60 ≤ score then "score-good"
  else "score-poor"

/-- `getScoreGradient` (AnalysisResults.tsx lines 56-60). -/
def getScoreGradient (score : ℚ) : String :=
  if 80 ≤ score then "bg-gradient-to-r from-success-500 to-success-600"
  else if 60 ≤ score then "bg-gradient-to-r from-warm-500 to-warm-600"
  else "bg-gradient-to-r from-error-500 to-error-600"

/-- Score interpretation text (AnalysisResults.tsx lines 91-93). -/
def scoreInterpretation (score : ℚ) : String :=
  if 80 ≤ score then "Excellent form!"
  else if 60 ≤ score then "Good form with room for improvement"
  else "Focus on fundamentals"

/-- `getExerciseTitle` (AnalysisResults.tsx lines 31-42): title map with
legacy keys, defaulting to "Exercise". -/
def getExerciseTitle (exerciseType : String) : String :=
  if exerciseType = "front-squat" then "Front Squat"
  else if exerciseType = "back-squat" then "Back Squat"
  else if exerciseType = "conventional-deadlift" then "Conventional Deadlift"
  else if exerciseType = "sumo-deadlift" then "Sumo Deadlift"
  else if exerciseType = "squat" then "Back Squat"
  else if exerciseType = "deadlift" then "Conventional Deadlift"
  else "Exercise"

end AnalysisResults

/-! ## VideoUploader (frontend/components/VideoUploader.tsx)

Exercise selection and the transport-layer retry of the second revision
(`uploadWithRetry`, lines 254-305). -/

namespace VideoUploader

/-- Ids of `exerciseOptions` (VideoUploader.tsx lines 12-41); identical in
both revisions of the component. -/
def exerciseOptionIds : List String :=
  ["front-squat", "back-squat", "conventional-deadlift", "sumo-deadlift"]

/-- One rendered exercise button per element of `exerciseOptions`; clicking
button `n` runs `setSelectedExercise(exercise.id)`. -/
inductive UploaderEvent where
  | selectOption (n : Fin exerciseOptionIds.length)

/-- `setSelectedExercise` on click (VideoUploader.tsx line 114 / 346). -/
def applyEvent (_prev : String) (e : UploaderEvent) : String :=
  match e with
  | .selectOption n => exerciseOptionIds.get n

/-- Selected exercise after a click sequence; `useState<string>('')` is the
initial value. -/
def selectedAfter (evs : List UploaderEvent) : String :=
  evs.foldl applyEvent ""

/-- `onDrop`: with no exercise selected it sets an error and returns; only
otherwise is the analysis started with the selected exercise id. -/
def startAnalysis (selected : String) : Option String :=
  if selected = "" then none else some selected

/-- `useState(3)` — `maxRetries` (VideoUploader.tsx line 252). -/
def maxRetries : ℕ := 3

/-- Substring test standing for JavaScript `String.prototype.includes`. -/
def strContains (msg pat : String) : Bool :=
  decide (pat.toList <:+: msg.toList)

/-- The transient-error test of `uploadWithRetry` (lines 284-288): retry
only when the message mentions a timeout, network or connection problem, or
a 503/504 status. -/
def isTransientError (msg : String) : Bool :=
  strContains msg "timeout" || strContains msg "network" ||
    strContains msg "connection" || strContains msg "503" ||
    strContains msg "504"

/-- Outcome of one upload-plus-analyze attempt, as observed through the
catch block of `uploadWithRetry`. -/
inductive UploadOutcome where
  | ok
  | err (msg : String)

/-- Trace of a `uploadWithRetry` run: the attempt numbers performed in
order, the backoff delay (ms) taken before each retry, and the error
surfaced to the user (`none` on success). -/
structure RetryTrace where
  attempts : List ℕ
  delaysMs : List ℕ
  finalError : Option String
deriving DecidableEq, Repr

/-- `uploadWithRetry` (VideoUploader.tsx lines 254-305): on a transient
error with `attempt < maxRetries`, wait `2 ^ attempt * 1000` ms and retry
with `attempt + 1`; otherwise surface the error.  `outcome` gives the
environment's response to each attempt. -/
def uploadWithRetry (outcome : ℕ → UploadOutcome) (attempt : ℕ) : RetryTrace :=
  match outcome attempt with
  | .ok => ⟨[attempt], [], none⟩
  | .err msg =>
    if h : attempt < maxRetries ∧ isTransientError msg = true then
      let rest := uploadWithRetry outcome (attempt + 1)
      ⟨attempt :: rest.attempts, 2 ^ attempt * 1000 :: rest.delaysMs, rest.finalError⟩
    else
      ⟨[attempt], [], some msg⟩
termination_by maxRetries - attempt
decreasing_by omega

/-- `onDrop` starts the chain at attempt 1 (`uploadWithRetry(file)` with
default `attempt: number = 1`). -/
def onDropRetry (outcome : ℕ → UploadOutcome) : RetryTrace :=
  uploadWithRetry outcome 1

end VideoUploader

/-! ## AnnotatedScreenshots viewer (src/unnamed/part_002) -/

namespace Screenshots

/-- `nextImage` (part_002 line 16): `(prev + 1) % screenshots.length`. -/
def nextImage (len : ℕ) (i : ℤ) : ℤ :=
  (i + 1) % (len : ℤ)

/-- `prevImage` (part_002 line 20):
`(prev - 1 + screenshots.length) % screenshots.length`. -/
def prevImage (len : ℕ) (i : ℤ) : ℤ :=
  (i - 1 + (len : ℤ)) % (len : ℤ)

/-- Zoom-in button (part_002 line 87): `Math.min(prev + 0.25, 3)`. -/
def zoomInStep (z : ℚ) : ℚ :=
  min (z + 1/4) 3

/-- Zoom-out button (part_002 line 93): `Math.max(prev - 0.25, 0.5)`. -/
def zoomOutStep (z : ℚ) : ℚ :=
  max (z - 1/4) (1/2)

/-- Viewer state: `currentIndex`, `zoom`, `rotation` (part_002 lines 11-13). -/
structure ViewerState where
  currentIndex : ℤ
  zoom : ℚ
  rotation : ℤ
deriving DecidableEq, Repr

/-- `useState(0)`, `useState(1)`, `useState(0)`. -/
def initialState : ViewerState :=
  ⟨0, 1, 0⟩

/-- User interactions of the viewer: arrows, zoom buttons, rotate, reset,
and clicking thumbnail `n` (rendered only for indices of `screenshots`). -/
inductive ViewerEvent where
  | next
  | prev
  | zoomIn
  | zoomOut
  | rotate
  | reset
  | selectThumb (n : ℕ)
deriving DecidableEq, Repr

/-- State transition of one interaction (part_002 lines 15-26, 87-109,
124). -/
def step (len : ℕ) (s : ViewerState) (e : ViewerEvent) : ViewerState :=
  match e with
  | .next => { s with currentIndex := nextImage len s.currentIndex }
  | .prev => { s with currentIndex := prevImage len s.currentIndex }
  | .zoomIn => { s with zoom := zoomInStep s.zoom }
  | .zoomOut => { s with zoom := zoomOutStep s.zoom }
  | .rotate => { s with rotation := s.rotation + 90 }
  | .reset => { s with zoom := 1, rotation := 0 }
  | .selectThumb n => { s with currentIndex := (n : ℤ) }

/-- Viewer state after a sequence of interactions. -/
def run (len : ℕ) (evs : List ViewerEvent) : ViewerState :=
  evs.foldl (step len) initialState

/-- The invariant of the viewer: a current index inside
[0, screenshots.length) and a zoom factor inside [0.5, 3]. -/
def ViewerInv (len : ℕ) (s : ViewerState) : Prop :=
  0 ≤ s.currentIndex ∧ s.currentIndex < (len : ℤ) ∧
    1/2 ≤ s.zoom ∧ s.zoom ≤ 3

end Screenshots

/-! ## LoadingAnalysis progress (frontend/components/LoadingAnalysis.tsx) -/

namespace Loading

/-- The three step titles (LoadingAnalysis.tsx lines 15-19). -/
def steps : List String :=
  ["Processing Video", "Analyzing Form", "Generating Feedback"]

/-- One 100 ms tick of the progress interval (lines 22-31): at 100 the
interval is cleared and 100 is returned, otherwise the value advances
by 2. -/
def progressTick (p : ℕ) : ℕ :=
  if 100 ≤ p then 100 else p + 2

/-- Progress value after `n` ticks, from `useState(0)`. -/
def progressAfter : ℕ → ℕ
  | 0 => 0
  | n + 1 => progressTick (progressAfter n)

/-- One 2000 ms tick of the step interval (lines 33-41): the index stops at
`steps.length - 1`. -/
def stepTick (s : ℕ) : ℕ :=
  if steps.length - 1 ≤ s then s else s + 1

/-- Current step index after `n` ticks, from `useState(0)`. -/
def stepAfter : ℕ → ℕ
  | 0 => 0
  | n + 1 => stepTick (stepAfter n)

end Loading

/-! ## Helper lemmas -/

namespace Scoring

theorem Severity.penalty_nonneg (s : Severity) : 0 ≤ s.penalty := by
  cases s <;> norm_num [Severity.penalty]

theorem categoryScore_ge (std : ExerciseStandard) (vals : List ℚ) :
    30 ≤ categoryScore std vals := by
  unfold categoryScore measuredScore fallbackScore
  split
  · norm_num
  · exact le_max_left _ _

theorem categoryScore_le (std : ExerciseStandard) (vals : List ℚ) :
    categoryScore std vals ≤ 100 := by
  unfold categoryScore measuredScore fallbackScore
  split
  · norm_num
  · apply max_le
    · norm_num
    · have := Severity.penalty_nonneg (classify std (deviation std (vals.sum / vals.length)))
      linarith

theorem sum_ge_const_mul {l : List ℚ} {c : ℚ} (h : ∀ x ∈ l, c ≤ x) :
    c * l.length ≤ l.sum := by
  induction l with
  | nil => simp
  | cons a t ih =>
    have ha := h a (List.mem_cons_self a t)
    have ht := ih (fun x hx => h x (List.mem_cons_of_mem a hx))
    simp only [List.length_cons, List.sum_cons]
    push_cast
    linarith

theorem round_ge_of_le {q : ℚ} {z : ℤ} (h : (z : ℚ) ≤ q) : z ≤ round q := by
  rw [round_eq, Int.le_floor]
  linarith

theorem overallScore_ge (scores : List ℚ) (hne : scores ≠ [])
    (h : ∀ x ∈ scores, (30 : ℚ) ≤ x) : 30 ≤ overallScore scores := by
  unfold overallScore
  apply round_ge_of_le
  have hlen : 0 < (scores.length : ℚ) := by
    have : 0 < scores.length := List.length_pos.mpr hne
    exact_mod_cast this
  rw [le_div_iff₀ hlen]
  have := sum_ge_const_mul h
  push_cast
  linarith

end Scoring

namespace VideoUploader

theorem uploadWithRetry_ok (outcome : ℕ → UploadOutcome) (attempt : ℕ)
    (h : outcome attempt = .ok) :
    uploadWithRetry outcome attempt = ⟨[attempt], [], none⟩ := by
  rw [uploadWithRetry, h]

theorem uploadWithRetry_stop (outcome : ℕ → UploadOutcome) (attempt : ℕ)
    (msg : String) (h : outcome attempt = .err msg)
    (hc : ¬(attempt < maxRetries ∧ isTransientError msg = true)) :
    uploadWithRetry outcome attempt = ⟨[attempt], [], some msg⟩ := by
  rw [uploadWithRetry, h]
  dsimp only
  rw [dif_neg hc]

theorem uploadWithRetry_retry (outcome : ℕ → UploadOutcome) (attempt : ℕ)
    (msg : String) (h : outcome attempt = .err msg)
    (h1 : attempt < maxRetries) (h2 : isTransientError msg = true) :
    uploadWithRetry outcome attempt =
      ⟨attempt :: (uploadWithRetry outcome (attempt + 1)).attempts,
       2 ^ attempt * 1000 :: (uploadWithRetry outcome (attempt + 1)).delaysMs,
       (uploadWithRetry outcome (attempt + 1)).finalError⟩ := by
  rw [uploadWithRetry, h]
  dsimp only
  rw [dif_pos ⟨h1, h2⟩]

theorem uploadWithRetry_attempts_ne_nil (outcome : ℕ → UploadOutcome)
    (attempt : ℕ) : (uploadWithRetry outcome attempt).attempts ≠ [] := by
  cases houtcome : outcome attempt with
  | ok => rw [uploadWithRetry_ok _ _ houtcome]; simp
  | err msg =>
    by_cases hc : attempt < maxRetries ∧ isTransientError msg = true
    · rw [uploadWithRetry_retry _ _ _ houtcome hc.1 hc.2]; simp
    · rw [uploadWithRetry_stop _ _ _ houtcome hc]; simp

theorem uploadWithRetry_spec (outcome : ℕ → UploadOutcome) :
    ∀ (k attempt : ℕ), maxRetries - attempt ≤ k →
    (uploadWithRetry outcome attempt).attempts.length ≤ k + 1 ∧
    (uploadWithRetry outcome attempt).delaysMs =
      ((uploadWithRetry outcome attempt).attempts.dropLast).map
        (fun a => 2 ^ a * 1000) ∧
    (∀ a ∈ (uploadWithRetry outcome attempt).attempts.dropLast,
      ∃ msg, outcome a = .err msg ∧ isTransientError msg = true ∧
        a < maxRetries) := by
  intro k
  induction k with
  | zero =>
    intro attempt hk
    cases houtcome : outcome attempt with
    | ok => rw [uploadWithRetry_ok _ _ houtcome]; simp
    | err msg =>
      rw [uploadWithRetry_stop _ _ _ houtcome (fun hc => by omega)]
      simp
  | succ k ih =>
    intro attempt _
    cases houtcome : outcome attempt with
    | ok => rw [uploadWithRetry_ok _ _ houtcome]; simp
    | err msg =>
      by_cases hc : attempt < maxRetries ∧ isTransientError msg = true
      · rw [uploadWithRetry_retry _ _ _ houtcome hc.1 hc.2]
        obtain ⟨hlen, hdel, htrans⟩ := ih (attempt + 1) (by omega)
        obtain ⟨b, l, hbl⟩ := List.exists_cons_of_ne_nil
          (uploadWithRetry_attempts_ne_nil outcome (attempt + 1))
        refine ⟨?_, ?_, ?_⟩
        · simp only [List.length_cons]
          omega
        · show 2 ^ attempt * 1000 ::
            (uploadWithRetry outcome (attempt + 1)).delaysMs = _
          rw [hdel, hbl, List.dropLast_cons₂, List.map_cons]
        · intro a ha
          rw [hbl, List.dropLast_cons₂] at ha
          rcases List.mem_cons.mp ha with rfl | hmem
          · exact ⟨msg, houtcome, hc.2, hc.1⟩
          · exact htrans a (by rw [hbl]; exact hmem)
      · rw [uploadWithRetry_stop _ _ _ houtcome hc]
        simp

theorem selectedAfter_mem_or_empty (evs : List UploaderEvent) :
    selectedAfter evs = "" ∨ selectedAfter evs ∈ exerciseOptionIds := by
  unfold selectedAfter
  have main : ∀ (l : List UploaderEvent) (s : String),
      s = "" ∨ s ∈ exerciseOptionIds →
      l.foldl applyEvent s = "" ∨ l.foldl applyEvent s ∈ exerciseOptionIds := by
    intro l
    induction l with
    | nil => intro s hs; exact hs
    | cons e t ih =>
      intro s _
      apply ih
      cases e with
      | selectOption n => exact Or.inr (List.get_mem _ _ _)
  exact main evs "" (Or.inl rfl)

end VideoUploader

namespace Screenshots

theorem prevImage_nextImage (len : ℕ) (i : ℤ) (hlen : 0 < len) (h0 : 0 ≤ i)
    (h1 : i < (len : ℤ)) : prevImage len (nextImage len i) = i := by
  unfold prevImage nextImage
  rcases eq_or_lt_of_le (show i + 1 ≤ (len : ℤ) by omega) with heq | hlt
  · rw [heq, Int.emod_self]
    have h2 : (0 : ℤ) - 1 + (len : ℤ) = (len : ℤ) - 1 := by ring
    rw [h2, Int.emod_eq_of_lt (by omega) (by omega)]
    omega
  · rw [Int.emod_eq_of_lt (by omega) hlt]
    have h2 : i + 1 - 1 + (len : ℤ) = i + (len : ℤ) * 1 := by ring
    rw [h2, Int.add_mul_emod_self_left]
    exact Int.emod_eq_of_lt h0 h1

theorem step_preserves_inv (len : ℕ) (hlen : 0 < len) (s : ViewerState)
    (e : ViewerEvent) (hinv : ViewerInv len s)
    (hsel : ∀ n, e = ViewerEvent.selectThumb n → n < len) :
    ViewerInv len (step len s e) := by
  obtain ⟨hi0, hi1, hz0, hz1⟩ := hinv
  have hlz : ((len : ℤ)) ≠ 0 := by
    have := hlen
    omega
  have hlp : (0 : ℤ) < (len : ℤ) := by exact_mod_cast hlen
  cases e with
  | next =>
    exact ⟨Int.emod_nonneg _ hlz, Int.emod_lt_of_pos _ hlp, hz0, hz1⟩
  | prev =>
    exact ⟨Int.emod_nonneg _ hlz, Int.emod_lt_of_pos _ hlp, hz0, hz1⟩
  | zoomIn =>
    refine ⟨hi0, hi1, le_min (by linarith) (by norm_num), min_le_right _ _⟩
  | zoomOut =>
    refine ⟨hi0, hi1, le_max_right _ _, max_le (by linarith) (by norm_num)⟩
  | rotate => exact ⟨hi0, hi1, hz0, hz1⟩
  | reset =>
    refine ⟨hi0, hi1, ?_, ?_⟩
    · show (1 : ℚ)/2 ≤ 1
      norm_num
    · show (1 : ℚ) ≤ 3
      norm_num
  | selectThumb n =>
    refine ⟨Int.natCast_nonneg n, ?_, hz0, hz1⟩
    show ((n : ℤ)) < (len : ℤ)
    exact_mod_cast hsel n rfl

theorem run_preserves_inv (len : ℕ) (hlen : 0 < len)
    (evs : List ViewerEvent)
    (hsel : ∀ n, ViewerEvent.selectThumb n ∈ evs → n < len) :
    ViewerInv len (run len evs) := by
  unfold run
  have main : ∀ (l : List ViewerEvent) (s : ViewerState), ViewerInv len s →
      (∀ n, ViewerEvent.selectThumb n ∈ l → n < len) →
      ViewerInv len (l.foldl (step len) s) := by
    intro l
    induction l with
    | nil => intro s hs _; exact hs
    | cons e t ih =>
      intro s hs hsel'
      simp only [List.foldl_cons]
      apply ih
      · exact step_preserves_inv len hlen s e hs
          (fun n hn => hsel' n (by rw [← hn]; exact List.mem_cons_self e t))
      · intro n hn
        exact hsel' n (List.mem_cons_of_mem e hn)
  apply main evs initialState ?_ hsel
  refine ⟨le_refl 0, ?_, ?_, ?_⟩
  · show (0 : ℤ) < (len : ℤ)
    exact_mod_cast hlen
  · show (1 : ℚ)/2 ≤ 1
    norm_num
  · show (1 : ℚ) ≤ 3
    norm_num

end Screenshots

namespace Loading

theorem progressAfter_closed (n : ℕ) : progressAfter n = min (2 * n) 100 := by
  induction n with
  | zero => rfl
  | succ n ih =>
    show progressTick (progressAfter n) = _
    rw [ih]
    unfold progressTick
    split <;> omega

theorem stepAfter_closed (n : ℕ) : stepAfter n = min n 2 := by
  induction n with
  | zero => rfl
  | succ n ih =>
    show stepTick (stepAfter n) = _
    rw [ih]
    unfold stepTick
    simp only [steps, List.length_cons, List.length_nil]
    split <;> omega

end Loading

/-! ## Claim theorems -/

/-- C1: for every AnalysisResult produced by the Scoring Engine, the
overall score equals the unweighted arithmetic mean of the CategoryScore
values, rounded to the nearest integer; and the breakdown with scores
80, 60, 100 yields overall 80. -/
theorem overall_score_is_rounded_mean (cats : List Scoring.CategoryInput) :
    (Scoring.analyze cats).overall_score =
      round (((Scoring.analyze cats).exercise_breakdown.map Scoring.CategoryScore.score).sum /
        (((Scoring.analyze cats).exercise_breakdown.map Scoring.CategoryScore.score).length : ℚ)) ∧
    Scoring.overallScore [80, 60, 100] = 80 := by
  constructor
  · rfl
  · norm_num [Scoring.overallScore, round_eq]

/-- C2: every CategoryScore produced by the Scoring Engine has a score in
the interval [30, 100]. -/
theorem category_score_in_bounds (cats : List Scoring.CategoryInput)
    (b : Scoring.CategoryScore)
    (hb : b ∈ (Scoring.analyze cats).exercise_breakdown) :
    30 ≤ b.score ∧ b.score ≤ 100 := by
  have hrw : (Scoring.analyze cats).exercise_breakdown = cats.map Scoring.scoreCategory := rfl
  rw [hrw] at hb
  rcases List.mem_map.mp hb with ⟨c, _, hc⟩
  subst hc
  exact ⟨Scoring.categoryScore_ge c.std c.values, Scoring.categoryScore_le c.std c.values⟩

/-- Witness for C2 at a concrete breakdown. -/
theorem category_score_in_bounds_witness :
    30 ≤ (Scoring.scoreCategory ⟨"depth", ⟨90, 120, 5, 10, 20⟩, [100]⟩).score ∧
      (Scoring.scoreCategory ⟨"depth", ⟨90, 120, 5, 10, 20⟩, [100]⟩).score ≤ 100 :=
  category_score_in_bounds [⟨"depth", ⟨90, 120, 5, 10, 20⟩, [100]⟩]
    (Scoring.scoreCategory ⟨"depth", ⟨90, 120, 5, 10, 20⟩, [100]⟩)
    (List.mem_singleton.mpr rfl)

/-- C3: a category with zero measured values across all reps gets the fixed
fallback score 75, still appears in the breakdown, is excluded from
areas_for_improvement, and the overall result is never dragged to zero:
it stays at least 30. -/
theorem unmeasured_category_fallback (cats : List Scoring.CategoryInput)
    (c : Scoring.CategoryInput) (hc : c ∈ cats) (hv : c.values = [])
    (hu : ∀ c' ∈ cats, c'.name = c.name → c'.values = []) :
    (Scoring.scoreCategory c).score = 75 ∧
    Scoring.scoreCategory c ∈ (Scoring.analyze cats).exercise_breakdown ∧
    c.name ∉ (Scoring.analyze cats).areas_for_improvement ∧
    30 ≤ (Scoring.analyze cats).overall_score := by
  refine ⟨?_, ?_, ?_, ?_⟩
  · simp [Scoring.scoreCategory, Scoring.categoryScore, hv, Scoring.fallbackScore]
  · exact List.mem_map_of_mem Scoring.scoreCategory hc
  · intro hmem
    have hrw : (Scoring.analyze cats).areas_for_improvement =
        (cats.filter (fun c' => !c'.values.isEmpty &&
          decide (Scoring.categoryScore c'.std c'.values < 60))).map
            Scoring.CategoryInput.name := rfl
    rw [hrw] at hmem
    rcases List.mem_map.mp hmem with ⟨c', hc', hname⟩
    have hf := List.mem_filter.mp hc'
    have hempty := hu c' hf.1 hname
    rw [hempty] at hf
    simp at hf
  · have hrw : (Scoring.analyze cats).overall_score =
        Scoring.overallScore ((cats.map Scoring.scoreCategory).map
          Scoring.CategoryScore.score) := rfl
    rw [hrw]
    apply Scoring.overallScore_ge
    · simp only [ne_eq, List.map_eq_nil_iff, List.map_eq_nil_iff]
      intro hnil
      rw [hnil] at hc
      exact List.not_mem_nil c hc
    · intro x hx
      rcases List.mem_map.mp hx with ⟨b, hb, hbx⟩
      rcases List.mem_map.mp hb with ⟨c', _, hc'⟩
      subst hc'
      subst hbx
      exact Scoring.categoryScore_ge c'.std c'.values

/-- Witness for C3 at a concrete request with one unmeasured category. -/
theorem unmeasured_category_fallback_witness :
    (Scoring.scoreCategory ⟨"bar_path", ⟨90, 120, 5, 10, 20⟩, []⟩).score = 75 ∧
    Scoring.scoreCategory ⟨"bar_path", ⟨90, 120, 5, 10, 20⟩, []⟩ ∈
      (Scoring.analyze [⟨"bar_path", ⟨90, 120, 5, 10, 20⟩, []⟩,
        ⟨"depth", ⟨90, 120, 5, 10, 20⟩, [100]⟩]).exercise_breakdown ∧
    "bar_path" ∉ (Scoring.analyze [⟨"bar_path", ⟨90, 120, 5, 10, 20⟩, []⟩,
        ⟨"depth", ⟨90, 120, 5, 10, 20⟩, [100]⟩]).areas_for_improvement ∧
    30 ≤ (Scoring.analyze [⟨"bar_path", ⟨90, 120, 5, 10, 20⟩, []⟩,
        ⟨"depth", ⟨90, 120, 5, 10, 20⟩, [100]⟩]).overall_score :=
  unmeasured_category_fallback
    [⟨"bar_path", ⟨90, 120, 5, 10, 20⟩, []⟩, ⟨"depth", ⟨90, 120, 5, 10, 20⟩, [100]⟩]
    ⟨"bar_path", ⟨90, 120, 5, 10, 20⟩, []⟩
    (List.mem_cons_self _ _) rfl (by decide)

/-- C4 counterexample: the analyze request in src/frontend/lib/api.ts passes
no per-request timeout, so it inherits the 30000 ms instance default — it
does not wait five minutes (300000 ms) as the claim states. -/
theorem analyze_timeout_not_five_minutes :
    Api.effectiveTimeoutMs Api.analyzeTimeoutNamed = 30000 ∧
    Api.effectiveTimeoutMs Api.analyzeTimeoutNamed ≠ 300000 := by
  exact ⟨rfl, by decide⟩

/-- C4 (amended): the unnamed client revision (src/unnamed/part_000) sets a
300000 ms (five-minute) timeout on the analyze request, matching the
documented backend pipeline timeout, while the client at
src/frontend/lib/api.ts inherits the 30000 ms instance default; the
timeout-specific failure cause is distinct from the three pipeline-internal
causes. -/
theorem analyze_timeout_by_revision :
    Api.effectiveTimeoutMs Api.analyzeTimeoutUnnamed = 300000 ∧
    Api.effectiveTimeoutMs Api.analyzeTimeoutNamed = Api.instanceTimeoutMs ∧
    FailureCause.pipelineTimeout ≠ FailureCause.qualityGateFailed ∧
    FailureCause.pipelineTimeout ≠ FailureCause.insufficientPoseSignal ∧
    FailureCause.pipelineTimeout ≠ FailureCause.noRepsDetected := by
  exact ⟨rfl, rfl, by decide, by decide, by decide⟩

/-- C5: feedback classification uses the fixed thresholds 80 and 60 — a
score at least 80 is displayed as excellent, below 60 as poor, in between
as good-with-room-for-improvement; the Scoring Engine puts every category
scoring at least 80 in strengths, every measured category scoring below 60
in areas_for_improvement, and keys specific cues to the worst one to three
categories of the breakdown. -/
theorem feedback_threshold_classification (s : ℚ)
    (cats : List Scoring.CategoryInput) :
    (80 ≤ s → AnalysisResults.getScoreBg s = "score-excellent" ∧
      AnalysisResults.scoreInterpretation s = "Excellent form!") ∧
    (s < 60 → AnalysisResults.getScoreBg s = "score-poor" ∧
      AnalysisResults.scoreInterpretation s = "Focus on fundamentals") ∧
    (60 ≤ s → s < 80 → AnalysisResults.getScoreBg s = "score-good" ∧
      AnalysisResults.scoreInterpretation s =
        "Good form with room for improvement") ∧
    (∀ b ∈ (Scoring.analyze cats).exercise_breakdown,
      80 ≤ b.score → b.category ∈ (Scoring.analyze cats).strengths) ∧
    (∀ c ∈ cats, c.values ≠ [] →
      Scoring.categoryScore c.std c.values < 60 →
      c.name ∈ (Scoring.analyze cats).areas_for_improvement) ∧
    (Scoring.analyze cats).specific_cues.length = min 3 cats.length := by
  refine ⟨?_, ?_, ?_, ?_, ?_, ?_⟩
  · intro h
    constructor
    · unfold AnalysisResults.getScoreBg
      rw [if_pos h]
    · unfold AnalysisResults.scoreInterpretation
      rw [if_pos h]
  · intro h
    constructor
    · unfold AnalysisResults.getScoreBg
      rw [if_neg (by linarith), if_neg (by linarith)]
    · unfold AnalysisResults.scoreInterpretation
      rw [if_neg (by linarith), if_neg (by linarith)]
  · intro h1 h2
    constructor
    · unfold AnalysisResults.getScoreBg
      rw [if_neg (by linarith), if_pos h1]
    · unfold AnalysisResults.scoreInterpretation
      rw [if_neg (by linarith), if_pos h1]
  · intro b hb h80
    have hrw : (Scoring.analyze cats).strengths =
        ((cats.map Scoring.scoreCategory).filter
          (fun b => decide (80 ≤ b.score))).map Scoring.CategoryScore.category := rfl
    rw [hrw]
    exact List.mem_map_of_mem _ (List.mem_filter.mpr ⟨hb, by simpa using h80⟩)
  · intro c hc hne hlt
    have hrw : (Scoring.analyze cats).areas_for_improvement =
        (cats.filter (fun c => !c.values.isEmpty &&
          decide (Scoring.categoryScore c.std c.values < 60))).map
            Scoring.CategoryInput.name := rfl
    rw [hrw]
    refine List.mem_map_of_mem _ (List.mem_filter.mpr ⟨hc, ?_⟩)
    simp [List.isEmpty_iff, hne, hlt]
  · have hrw : (Scoring.analyze cats).specific_cues =
        (((cats.map Scoring.scoreCategory).mergeSort Scoring.scoreLE).take 3).map
          (fun b => Scoring.cueFor b.category) := rfl
    rw [hrw]
    simp [List.length_take, List.length_mergeSort]

/-- Witness for C5 at concrete scores 85 and 55. -/
theorem feedback_threshold_classification_witness :
    ((80 : ℚ) ≤ 85 ∧ AnalysisResults.getScoreBg 85 = "score-excellent" ∧
      AnalysisResults.scoreInterpretation 85 = "Excellent form!") ∧
    ((55 : ℚ) < 60 ∧ AnalysisResults.getScoreBg 55 = "score-poor" ∧
      AnalysisResults.scoreInterpretation 55 = "Focus on fundamentals") :=
  ⟨⟨by norm_num, (feedback_threshold_classification 85 []).1 (by norm_num)⟩,
   ⟨by norm_num, (feedback_threshold_classification 55 []).2.1 (by norm_num)⟩⟩

/-- C6: the uploader's exercise enum is exactly front-squat, back-squat,
conventional-deadlift, sumo-deadlift; any analysis the uploader starts
carries one of these four identifiers (with no selection it refuses to
start), and each maps to its display title. -/
theorem exercise_type_enum_closed (evs : List VideoUploader.UploaderEvent)
    (e : String)
    (h : VideoUploader.startAnalysis (VideoUploader.selectedAfter evs) = some e) :
    VideoUploader.exerciseOptionIds =
      ["front-squat", "back-squat", "conventional-deadlift", "sumo-deadlift"] ∧
    e ∈ VideoUploader.exerciseOptionIds ∧
    AnalysisResults.getExerciseTitle "front-squat" = "Front Squat" ∧
    AnalysisResults.getExerciseTitle "back-squat" = "Back Squat" ∧
    AnalysisResults.getExerciseTitle "conventional-deadlift" =
      "Conventional Deadlift" ∧
    AnalysisResults.getExerciseTitle "sumo-deadlift" = "Sumo Deadlift" := by
  refine ⟨rfl, ?_, by decide, by decide, by decide, by decide⟩
  unfold VideoUploader.startAnalysis at h
  by_cases hsel : VideoUploader.selectedAfter evs = ""
  · rw [if_pos hsel] at h
    exact absurd h (by simp)
  · rw [if_neg hsel] at h
    rcases VideoUploader.selectedAfter_mem_or_empty evs with h1 | h1
    · exact absurd h1 hsel
    · rw [← Option.some.inj h]
      exact h1

/-- Witness for C6: selecting the first option and dropping a file starts
an analysis carrying "front-squat". -/
theorem exercise_type_enum_closed_witness :
    "front-squat" ∈ VideoUploader.exerciseOptionIds :=
  (exercise_type_enum_closed
    [VideoUploader.UploaderEvent.selectOption ⟨0, by decide⟩]
    "front-squat" (by decide)).2.1

/-- C7: every failure Diagnostic carries the full QualityReport context —
frames sampled, frames with usable pose, success rate equal to
usable/sampled, average visible landmarks, an issue code for its cause and
a non-empty recommendation list — never an opaque failure. -/
theorem diagnostic_carries_quality_context (cause : FailureCause)
    (qr : Reporter.QualityReport) :
    (Reporter.report cause qr).total_frames = qr.totalFrames ∧
    (Reporter.report cause qr).frames_with_pose = qr.framesWithPose ∧
    (Reporter.report cause qr).success_rate =
      (qr.framesWithPose : ℚ) / (qr.totalFrames : ℚ) ∧
    (Reporter.report cause qr).avg_visible_landmarks =
      qr.avgVisibleLandmarks ∧
    Reporter.issueCodeFor cause ∈ (Reporter.report cause qr).issues ∧
    (Reporter.report cause qr).recommendations ≠ [] := by
  refine ⟨rfl, rfl, rfl, rfl, List.mem_cons_self _ _, ?_⟩
  cases cause <;> simp [Reporter.report, Reporter.recommendationsFor]

/-- C8: the transport-layer uploader makes at most 3 attempts in total,
waits 2 ^ attempt seconds (in ms) before each retry, retries only after a
transient error (timeout / network / connection / 503 / 504 in the
message), and surfaces any other failure immediately without retrying. -/
theorem transport_retry_policy (outcome : ℕ → VideoUploader.UploadOutcome) :
    VideoUploader.maxRetries = 3 ∧
    (VideoUploader.onDropRetry outcome).attempts.length ≤ 3 ∧
    (VideoUploader.onDropRetry outcome).delaysMs =
      ((VideoUploader.onDropRetry outcome).attempts.dropLast).map
        (fun a => 2 ^ a * 1000) ∧
    (∀ a ∈ (VideoUploader.onDropRetry outcome).attempts.dropLast,
      ∃ msg, outcome a = VideoUploader.UploadOutcome.err msg ∧
        VideoUploader.isTransientError msg = true) ∧
    (∀ msg, outcome 1 = VideoUploader.UploadOutcome.err msg →
      VideoUploader.isTransientError msg = false →
      VideoUploader.onDropRetry outcome = ⟨[1], [], some msg⟩) := by
  obtain ⟨hlen, hdel, htrans⟩ :=
    VideoUploader.uploadWithRetry_spec outcome 2 1 (by decide)
  refine ⟨rfl, hlen, hdel, ?_, ?_⟩
  · intro a ha
    obtain ⟨msg, h1, h2, _⟩ := htrans a ha
    exact ⟨msg, h1, h2⟩
  · intro msg h1 h2
    refine VideoUploader.uploadWithRetry_stop outcome 1 msg h1 ?_
    intro hc
    rw [h2] at hc
    exact Bool.false_ne_true hc.2

/-- Witness for C8: a non-transient error on the first attempt is surfaced
immediately with no retry. -/
theorem transport_retry_policy_witness :
    VideoUploader.isTransientError "Invalid file: corrupt" = false ∧
    VideoUploader.onDropRetry
        (fun _ => VideoUploader.UploadOutcome.err "Invalid file: corrupt") =
      ⟨[1], [], some "Invalid file: corrupt"⟩ :=
  ⟨by decide,
   (transport_retry_policy
     (fun _ => VideoUploader.UploadOutcome.err "Invalid file: corrupt")).2.2.2.2
     "Invalid file: corrupt" rfl (by decide)⟩

/-- C9: with a non-empty screenshots list the viewer's index stays within
[0, length), prevImage after nextImage restores the index, and the zoom
factor stays within [0.5, 3] under any interaction sequence. -/
theorem viewer_index_zoom_invariant (len : ℕ)
    (evs : List Screenshots.ViewerEvent) (hlen : 0 < len)
    (hsel : ∀ n, Screenshots.ViewerEvent.selectThumb n ∈ evs → n < len) :
    0 ≤ (Screenshots.run len evs).currentIndex ∧
    (Screenshots.run len evs).currentIndex < (len : ℤ) ∧
    1/2 ≤ (Screenshots.run len evs).zoom ∧
    (Screenshots.run len evs).zoom ≤ 3 ∧
    (∀ i : ℤ, 0 ≤ i → i < (len : ℤ) →
      Screenshots.prevImage len (Screenshots.nextImage len i) = i) := by
  obtain ⟨h1, h2, h3, h4⟩ := Screenshots.run_preserves_inv len hlen evs hsel
  exact ⟨h1, h2, h3, h4,
    fun i hi0 hi1 => Screenshots.prevImage_nextImage len i hlen hi0 hi1⟩

/-- Witness for C9 on two screenshots and a concrete interaction
sequence. -/
theorem viewer_index_zoom_invariant_witness :
    (0 ≤ (Screenshots.run 2 [Screenshots.ViewerEvent.next,
        Screenshots.ViewerEvent.zoomIn,
        Screenshots.ViewerEvent.prev]).currentIndex ∧
      (Screenshots.run 2 [Screenshots.ViewerEvent.next,
        Screenshots.ViewerEvent.zoomIn,
        Screenshots.ViewerEvent.prev]).currentIndex < (2 : ℤ)) ∧
    Screenshots.prevImage 2 (Screenshots.nextImage 2 1) = 1 := by
  have h := viewer_index_zoom_invariant 2
    [Screenshots.ViewerEvent.next, Screenshots.ViewerEvent.zoomIn,
      Screenshots.ViewerEvent.prev]
    (by decide) (by intro n hn; simp at hn)
  exact ⟨⟨h.1, h.2.1⟩, h.2.2.2.2 1 (by decide) (by decide)⟩

/-- C10: the loading view's progress equals min(2·ticks, 100) — so it is
monotone, advances in increments of 2 from 0 and never exceeds 100 — and
the current step index equals min(ticks, 2), never beyond the last of the
three steps. -/
theorem loading_progress_monotone_capped (n : ℕ) :
    Loading.progressAfter n = min (2 * n) 100 ∧
    Loading.stepAfter n = min n (Loading.steps.length - 1) ∧
    (∀ m : ℕ, m ≤ n → Loading.progressAfter m ≤ Loading.progressAfter n) ∧
    Loading.progressAfter n ≤ 100 ∧
    Loading.stepAfter n ≤ 2 ∧
    (Loading.progressAfter n < 100 →
      Loading.progressAfter (n + 1) = Loading.progressAfter n + 2) := by
  refine ⟨Loading.progressAfter_closed n, ?_, ?_, ?_, ?_, ?_⟩
  · rw [Loading.stepAfter_closed n]
    rfl
  · intro m hm
    rw [Loading.progressAfter_closed m, Loading.progressAfter_closed n]
    omega
  · rw [Loading.progressAfter_closed n]
    omega
  · rw [Loading.stepAfter_closed n]
    omega
  · intro hlt
    rw [Loading.progressAfter_closed n] at hlt
    rw [Loading.progressAfter_closed n, Loading.progressAfter_closed (n + 1)]
    omega

/-- Witness for C10 at concrete tick counts. -/
theorem loading_progress_monotone_capped_witness :
    (3 ≤ 55 ∧ Loading.progressAfter 3 ≤ Loading.progressAfter 55) ∧
    (Loading.progressAfter 3 < 100 ∧
      Loading.progressAfter 4 = Loading.progressAfter 3 + 2) :=
  ⟨⟨by decide, (loading_progress_monotone_capped 55).2.2.1 3 (by decide)⟩,
   ⟨by decide, (loading_progress_monotone_capped 3).2.2.2.2.2 (by decide)⟩⟩

end FixMyForm
